import Mathlib

/-!
Shallow embedding of the longcut video-link reconciliation fragment:

* `saveVideoAnalysisWithRetry` (retry wrapper around the
  `insert_video_analysis_server` remote procedure),
* `ensureUserVideoLink` (fallback linking primitive over the
  `video_analyses` and `user_videos` tables),
* the `POST /api/verify-video-link` route handler,
* the bulk repair `INSERT ... ON CONFLICT DO NOTHING` migration statement.

The remote procedure and the database round trips are modelled by oracles
(an outcome per attempt index, respectively explicit table states plus an
environment recording which awaited step throws), so that each code path of
the source is a reachable path of the embedding.
-/

/-! ### String containment, as JavaScript `String.prototype.includes` -/

def listIsPrefixOf : List Char → List Char → Bool
  | [], _ => true
  | _ :: _, [] => false
  | a :: as, b :: bs => a == b && listIsPrefixOf as bs

def listIsSubstrOf (pat : List Char) : List Char → Bool
  | [] => pat.isEmpty
  | b :: bs => listIsPrefixOf pat (b :: bs) || listIsSubstrOf pat bs

/-- JS `s.includes pat`: `pat` occurs as a contiguous substring of `s`. -/
def strIncludes (s pat : String) : Bool :=
  listIsSubstrOf pat.data s.data

/-! ### saveVideoAnalysisWithRetry -/

/-- Outcome of one invocation of the `insert_video_analysis_server` RPC:
either it yields a video id (`data` with no `error`), or the attempt ends in
an error message (a returned `error` that is thrown, or a rejected await);
in both cases the catch block sees only the message string. -/
inductive RpcOutcome where
  | ok (videoId : String)
  | err (msg : String)
deriving DecidableEq

/-- The `SaveResult` record of the source. -/
structure SaveResult where
  success : Bool
  videoId : Option String
  error : Option String
  retriedCount : Nat
deriving DecidableEq

/-- A run of the retry loop: its returned result, how many times the remote
procedure was invoked, and the list of scheduled backoff delays in order. -/
structure SaveTrace where
  result : SaveResult
  rpcCalls : Nat
  delays : List Nat
deriving DecidableEq

/-- The retryable-error classification of the source: substring match on the
foreign-key / profiles markers. -/
def isRetryableError (msg : String) : Bool :=
  strIncludes msg ("foreign key") ||
  strIncludes msg ("profiles") ||
  strIncludes msg ("violates foreign key constraint") ||
  strIncludes msg ("user_videos_user_id_fkey")

/-- The body of the `for (let attempt = 0; attempt < maxRetries; attempt++)`
loop.  `remaining` is `maxRetries - attempt`, the number of loop iterations
the guard still allows, so the recursion is structural.  On success the loop
returns; on an error the catch block classifies it, schedules a delay of
`retryDelayMs * (attempt + 1)` when it is retryable and attempts remain, and
in either case falls to the next iteration (the non-retryable branch only
logs — it has no break or return), so the result of an errored attempt is
always the result of the rest of the loop. -/
def saveGo (rpc : Nat → RpcOutcome) (maxRetries retryDelayMs : Nat) :
    Nat → Nat → SaveTrace
  | _, 0 =>
    ⟨⟨false, none, some ("Max retries exceeded"), maxRetries⟩, 0, []⟩
  | attempt, remaining + 1 =>
    match rpc attempt with
    | .ok vid => ⟨⟨true, some vid, none, attempt⟩, 1, []⟩
    | .err msg =>
      let t := saveGo rpc maxRetries retryDelayMs (attempt + 1) remaining
      ⟨t.result, t.rpcCalls + 1,
        if isRetryableError msg ∧ attempt < maxRetries - 1 then
          retryDelayMs * (attempt + 1) :: t.delays
        else
          t.delays⟩

/-- `saveVideoAnalysisWithRetry` with the remote procedure abstracted to an
outcome per zero-based attempt index. -/
def saveVideoAnalysisWithRetry (rpc : Nat → RpcOutcome)
    (maxRetries retryDelayMs : Nat) : SaveTrace :=
  saveGo rpc maxRetries retryDelayMs 0 maxRetries

/-! ### ensureUserVideoLink -/

/-- A row of the `user_videos` table: `user_id`, `video_id`, `accessed_at`
(timestamps as naturals). -/
structure UserVideoRow where
  user_id : String
  video_id : String
  accessed_at : Nat
deriving DecidableEq

/-- The table state `ensureUserVideoLink` reads and writes:
`video_analyses` as `(youtube_id, id)` pairs and the `user_videos` rows. -/
structure LinkDB where
  videoAnalyses : List (String × String)
  userVideos : List UserVideoRow
deriving DecidableEq

/-- The result record of `ensureUserVideoLink`. -/
structure LinkResult where
  linked : Bool
  videoId : Option String
  error : Option String
deriving DecidableEq

/-- Environment for one invocation: which awaited round trip (if any)
rejects with an exception, whether the upsert reports a returned error, and
the current time used for `accessed_at`. -/
structure LinkEnv where
  videoQueryThrows : Option String
  linkQueryThrows : Option String
  upsertThrows : Option String
  upsertError : Option String
  now : Nat
deriving DecidableEq

/-- The `.single()` lookup of `video_analyses` by `youtube_id`: yields the
internal id when exactly one row matches, otherwise an error/null row (both
folded into `none`, as the source checks `videoError || !video`). -/
def lookupVideo (db : LinkDB) (youtubeId : String) : Option String :=
  match db.videoAnalyses.filter (fun va => va.1 == youtubeId) with
  | [va] => some va.2
  | _ => none

/-- The `.single()` check of `user_videos` by `(user_id, video_id)`: the
destructured `data` is non-null exactly when one row matches (the error of
this query is discarded by the source). -/
def linkExists (rows : List UserVideoRow) (u v : String) : Bool :=
  match rows.filter (fun x => x.user_id == u && x.video_id == v) with
  | [_] => true
  | _ => false

/-- The `upsert` with `onConflict: 'user_id,video_id'`: replaces the
conflicting row when the pair already exists, otherwise appends the row. -/
def upsertRow (rows : List UserVideoRow) (r : UserVideoRow) : List UserVideoRow :=
  if rows.any (fun x => x.user_id == r.user_id && x.video_id == r.video_id) then
    rows.map (fun x =>
      if x.user_id == r.user_id && x.video_id == r.video_id then r else x)
  else
    rows ++ [r]

/-- `ensureUserVideoLink`, returning the result record, the table state
after the call, and the number of write round trips performed.  A thrown
step lands in the source's catch block, which returns
`linked=false, videoId=null` with the stringified error. -/
def ensureUserVideoLink (db : LinkDB) (env : LinkEnv) (userId youtubeId : String) :
    LinkResult × LinkDB × Nat :=
  match env.videoQueryThrows with
  | some m => (⟨false, none, some m⟩, db, 0)
  | none =>
    match lookupVideo db youtubeId with
    | none => (⟨false, none, some ("Video not found")⟩, db, 0)
    | some vid =>
      match env.linkQueryThrows with
      | some m => (⟨false, none, some m⟩, db, 0)
      | none =>
        if linkExists db.userVideos userId vid then
          (⟨true, some vid, none⟩, db, 0)
        else
          match env.upsertThrows with
          | some m => (⟨false, none, some m⟩, db, 0)
          | none =>
            match env.upsertError with
            | some m => (⟨false, some vid, some m⟩, db, 0)
            | none =>
              (⟨true, some vid, none⟩,
                ⟨db.videoAnalyses, upsertRow db.userVideos ⟨userId, vid, env.now⟩⟩, 1)

/-! ### POST /api/verify-video-link route handler -/

/-- The `videoId` field of the parsed request body: absent (or a JS falsy
non-string such as `null`), present but not a string, or a string value. -/
inductive BodyVideoId where
  | missing
  | notString
  | strVal (s : String)
deriving DecidableEq

/-- Environment for one request: whether `req.json()` rejects (the body is
not valid JSON), the resolved authenticated user (if any), the body's
`videoId` field, and the environment of the inner linking call. -/
structure RouteEnv where
  jsonThrows : Option String
  body : BodyVideoId
  user : Option String
  linkEnv : LinkEnv
deriving DecidableEq

/-- The structured responses the handler can produce. -/
inductive RouteResponse where
  | badRequest
  | unauthorized
  | linkFailed (error : String)
  | okResp (linked : Bool) (videoId : Option String)
  | serverError
deriving DecidableEq

/-- HTTP status of each response. -/
def respStatus : RouteResponse → Nat
  | .badRequest => 400
  | .unauthorized => 401
  | .linkFailed _ => 500
  | .okResp _ _ => 200
  | .serverError => 500

/-- JS truthiness of `result.error` (a string): truthy iff non-null and
non-empty. -/
def errTruthy : Option String → Bool
  | none => false
  | some e => !(e == "")

/-- The route handler: guards `!videoId || typeof videoId !== 'string'`
(so the empty string, being falsy, is rejected with 400), then the auth
check, then the linking call; `result.error && !result.linked` selects the
500 branch; the surrounding try/catch maps any thrown step to the generic
500 response. -/
def handler (db : LinkDB) (env : RouteEnv) : RouteResponse × LinkDB × Nat :=
  match env.jsonThrows with
  | some _ => (.serverError, db, 0)
  | none =>
    match env.body with
    | .missing => (.badRequest, db, 0)
    | .notString => (.badRequest, db, 0)
    | .strVal s =>
      if s == "" then (.badRequest, db, 0)
      else
        match env.user with
        | none => (.unauthorized, db, 0)
        | some uid =>
          match ensureUserVideoLink db env.linkEnv uid s with
          | (r, db2, w) =>
            if errTruthy r.error && !r.linked then
              (.linkFailed (r.error.getD ("")), db2, w)
            else
              (.okResp r.linked r.videoId, db2, w)

/-- The behaviour claim C3 ascribes to the handler, read literally: 400
exactly when `videoId` is missing or not a string, then 401 without a user,
then 500 carrying the error when the primitive reports a non-null error
with `linked=false`, else 200 with `{linked, videoId}`; exceptions map to
the generic 500. -/
def c3ClaimedBehaviour (db : LinkDB) (env : RouteEnv) : Prop :=
  match env.jsonThrows with
  | some _ => (handler db env).1 = .serverError
  | none =>
    match env.body with
    | .missing => respStatus (handler db env).1 = 400
    | .notString => respStatus (handler db env).1 = 400
    | .strVal s =>
      match env.user with
      | none => respStatus (handler db env).1 = 401
      | some uid =>
        match ensureUserVideoLink db env.linkEnv uid s with
        | (r, _, _) =>
          if r.error ≠ none ∧ r.linked = false then
            (handler db env).1 = .linkFailed (r.error.getD (""))
          else
            (handler db env).1 = .okResp r.linked r.videoId

/-- Modelled from the amended claim: the handler's behaviour with the two
JS-truthiness corrections — a present-but-empty `videoId` string is also
rejected with 400, and the 500 branch requires a truthy (non-null and
non-empty) error string together with `linked=false`. -/
def handlerAmendedSpec (db : LinkDB) (env : RouteEnv) : RouteResponse :=
  match env.jsonThrows with
  | some _ => .serverError
  | none =>
    match env.body with
    | .missing => .badRequest
    | .notString => .badRequest
    | .strVal s =>
      if s = "" then .badRequest
      else
        match env.user with
        | none => .unauthorized
        | some uid =>
          match ensureUserVideoLink db env.linkEnv uid s with
          | (r, _, _) =>
            match r.error with
            | some e =>
              if e ≠ "" ∧ r.linked = false then .linkFailed e
              else .okResp r.linked r.videoId
            | none => .okResp r.linked r.videoId

/-! ### Bulk repair migration statement -/

/-- A row of `video_generations`: nullable `user_id`, `youtube_id`,
`created_at`. -/
structure VGRow where
  user_id : Option String
  youtube_id : String
  created_at : Nat
deriving DecidableEq

/-- A row of `video_analyses` as the migration reads it: internal `id` and
`youtube_id`. -/
structure VARow where
  id : String
  youtube_id : String
deriving DecidableEq

/-- The database state the migration statement touches. -/
structure BulkDB where
  video_generations : List VGRow
  video_analyses : List VARow
  profiles : List String
  user_videos : List UserVideoRow
deriving DecidableEq

/-- Whether a `user_videos` row for the pair exists (the `LEFT JOIN ...
uv.id IS NULL` anti-join test). -/
def hasLink (rows : List UserVideoRow) (u v : String) : Bool :=
  rows.any (fun x => x.user_id == u && x.video_id == v)

/-- The `SELECT DISTINCT` of the migration: join `video_generations` to
`video_analyses` on `youtube_id`, keep rows whose non-null `user_id` has a
`profiles` row and no existing `user_videos` row, and project
`(user_id, video_id, created_at)` rows, deduplicated. -/
def bulkSelect (db : BulkDB) : List UserVideoRow :=
  (db.video_generations.flatMap (fun vg =>
    match vg.user_id with
    | none => []
    | some u =>
      (db.video_analyses.filter (fun va => va.youtube_id == vg.youtube_id)).filterMap
        (fun va =>
          if db.profiles.contains u && !hasLink db.user_videos u va.id then
            some ⟨u, va.id, vg.created_at⟩
          else
            none))).dedup

/-- `INSERT ... ON CONFLICT (user_id, video_id) DO NOTHING`: insert the
selected rows one by one, skipping any row whose pair conflicts with an
existing row or with a row inserted earlier in the same statement; also
returns the number of rows actually inserted. -/
def insertOnConflictDoNothing (rows : List UserVideoRow) :
    List UserVideoRow → List UserVideoRow × Nat
  | [] => (rows, 0)
  | r :: rest =>
    if hasLink rows r.user_id r.video_id then
      insertOnConflictDoNothing rows rest
    else
      ((insertOnConflictDoNothing (rows ++ [r]) rest).1,
        (insertOnConflictDoNothing (rows ++ [r]) rest).2 + 1)

/-- The whole migration statement: run the insert over the selected rows,
returning the new state and the number of inserted rows. -/
def bulkRepair (db : BulkDB) : BulkDB × Nat :=
  (⟨db.video_generations, db.video_analyses, db.profiles,
      (insertOnConflictDoNothing db.user_videos (bulkSelect db)).1⟩,
    (insertOnConflictDoNothing db.user_videos (bulkSelect db)).2)

/-- The `(user_id, video_id)` key of a link row, for the uniqueness
invariant. -/
def linkKey (r : UserVideoRow) : String × String :=
  (r.user_id, r.video_id)

/-! ### Lemmas about the retry loop -/

/-- If the first successful attempt is index `k` (every earlier attempt from
`a` on errors), the loop started at `a` returns the success result of
attempt `k`. -/
lemma saveGo_success_result (rpc : Nat → RpcOutcome) (mr d : Nat) (vid : String)
    (k : Nat) (hk : k < mr) (hok : rpc k = .ok vid) :
    ∀ remaining a, a + remaining = mr → a ≤ k →
      (∀ i, a ≤ i → i < k → ∃ m, rpc i = .err m) →
      (saveGo rpc mr d a remaining).result = ⟨true, some vid, none, k⟩ := by
  intro remaining
  induction remaining with
  | zero => intro a hsum hak _; omega
  | succ n ih =>
    intro a hsum hak herr
    by_cases hek : a = k
    · subst hek
      simp [saveGo, hok]
    · obtain ⟨m, hm⟩ := herr a le_rfl (lt_of_le_of_ne hak hek)
      simp only [saveGo, hm]
      exact ih (a + 1) (by omega) (by omega) (fun i h1 h2 => herr i (by omega) h2)

/-- If every attempt from `a` on errors, the loop started at `a` exhausts
and returns the fixed failure result. -/
lemma saveGo_exhaust_result (rpc : Nat → RpcOutcome) (mr d : Nat) :
    ∀ remaining a, a + remaining = mr →
      (∀ i, a ≤ i → i < mr → ∃ m, rpc i = .err m) →
      (saveGo rpc mr d a remaining).result =
        ⟨false, none, some ("Max retries exceeded"), mr⟩ := by
  intro remaining
  induction remaining with
  | zero => intro a _ _; simp [saveGo]
  | succ n ih =>
    intro a hsum herr
    obtain ⟨m, hm⟩ := herr a le_rfl (by omega)
    simp only [saveGo, hm]
    exact ih (a + 1) (by omega) (fun i h1 h2 => herr i (by omega) h2)

/-- One unfolding of the loop at an errored attempt: the attempt's error is
classified, and the rest of the loop runs either way. -/
lemma saveGo_err_step (rpc : Nat → RpcOutcome) (mr d a remaining : Nat) (m : String)
    (hm : rpc a = .err m) :
    saveGo rpc mr d a (remaining + 1) =
      ⟨(saveGo rpc mr d (a + 1) remaining).result,
        (saveGo rpc mr d (a + 1) remaining).rpcCalls + 1,
        if isRetryableError m ∧ a < mr - 1 then
          d * (a + 1) :: (saveGo rpc mr d (a + 1) remaining).delays
        else
          (saveGo rpc mr d (a + 1) remaining).delays⟩ := by
  simp [saveGo, hm]

/-- When every attempt fails with a retryable error, the loop started at `a`
schedules exactly the delays `d * j` for `j` ranging over the remaining
attempt indices that are followed by a retry. -/
lemma saveGo_delays_retryable (rpc : Nat → RpcOutcome) (mr d : Nat)
    (hall : ∀ i, i < mr → ∃ m, rpc i = .err m ∧ isRetryableError m = true) :
    ∀ remaining a, a + remaining = mr →
      (saveGo rpc mr d a remaining).delays =
        (List.range' (a + 1) (remaining - 1)).map (fun j => d * j) := by
  intro remaining
  induction remaining with
  | zero => intro a _; simp [saveGo]
  | succ n ih =>
    intro a hsum
    obtain ⟨m, hm, hretry⟩ := hall a (by omega)
    rw [saveGo_err_step rpc mr d a n m hm]
    cases n with
    | zero =>
      dsimp only
      rw [if_neg (fun hc => absurd hc.2 (by omega))]
      simp [saveGo]
    | succ n' =>
      dsimp only
      rw [if_pos ⟨hretry, by omega⟩, ih (a + 1) (by omega)]
      simp only [Nat.add_sub_cancel, List.range'_succ, List.map_cons]

/-- A failing run always carries the fixed error string. -/
lemma saveGo_error_on_failure (rpc : Nat → RpcOutcome) (mr d : Nat) :
    ∀ remaining a, (saveGo rpc mr d a remaining).result.success = false →
      (saveGo rpc mr d a remaining).result.error = some ("Max retries exceeded") := by
  intro remaining
  induction remaining with
  | zero => intro a _; simp [saveGo]
  | succ n ih =>
    intro a hfail
    cases hr : rpc a with
    | ok vid => simp [saveGo, hr] at hfail
    | err m =>
      simp only [saveGo, hr] at hfail ⊢
      exact ih (a + 1) hfail

/-- Sum of the linear backoff delays: `d*1 + d*2 + ... + d*n` equals `d`
times the sum `0 + 1 + ... + n`. -/
lemma sum_range_map_mul_succ (d : Nat) :
    ∀ n, ((List.range n).map (fun i => d * (i + 1))).sum =
      d * ((List.range (n + 1)).sum) := by
  intro n
  induction n with
  | zero =>
    have h1 : (List.range 1).sum = 0 := rfl
    simp [h1]
  | succ n ih =>
    rw [List.range_succ, List.map_append, List.sum_append, ih,
      List.range_succ (n + 1), List.sum_append]
    simp [Nat.mul_add]

/-! ### Claims about saveVideoAnalysisWithRetry -/

/-- Claim C1 (evaluation at the failing input): a non-retryable error on the
first attempt does not stop the loop — with `maxRetries = 2` and every
attempt failing with a non-retryable error, the remote procedure is invoked
twice (the catch block only logs on the non-retryable branch; it has no
break or return), though no backoff delay is scheduled. -/
theorem c1_nonretryable_error_still_retried :
    isRetryableError ("permission denied") = false ∧
    (saveVideoAnalysisWithRetry (fun _ => .err ("permission denied")) 2 500).rpcCalls = 2 ∧
    (saveVideoAnalysisWithRetry (fun _ => .err ("permission denied")) 2 500).delays = [] := by
  decide

/-- Claim C4: if the remote call first succeeds at zero-based attempt
`k < maxRetries`, the result is success with `retriedCount = k` and the
returned video id; if no attempt succeeds, `retriedCount = maxRetries`. -/
theorem c4_retried_count (rpc : Nat → RpcOutcome) (mr d k : Nat) (vid : String) :
    (k < mr → rpc k = .ok vid → (∀ i, i < k → ∃ m, rpc i = .err m) →
      (saveVideoAnalysisWithRetry rpc mr d).result = ⟨true, some vid, none, k⟩) ∧
    ((∀ i, i < mr → ∃ m, rpc i = .err m) →
      (saveVideoAnalysisWithRetry rpc mr d).result.retriedCount = mr) := by
  constructor
  · intro hk hok herr
    exact saveGo_success_result rpc mr d vid k hk hok mr 0 (by omega) (by omega)
      (fun i _ h2 => herr i h2)
  · intro herr
    rw [saveVideoAnalysisWithRetry,
      saveGo_exhaust_result rpc mr d mr 0 (by omega) (fun i _ h2 => herr i h2)]

/-- Witness for C4 at concrete inputs: success on attempt 1 of 3, and total
exhaustion with 2 attempts. -/
theorem c4_retried_count_witness :
    (saveVideoAnalysisWithRetry
        (fun i => if i = 1 then .ok ("v7") else .err ("zap")) 3 10).result =
      ⟨true, some ("v7"), none, 1⟩ ∧
    (saveVideoAnalysisWithRetry (fun _ => .err ("zap")) 2 10).result.retriedCount = 2 := by
  constructor
  · exact (c4_retried_count (fun i => if i = 1 then .ok ("v7") else .err ("zap"))
      3 10 1 ("v7")).1 (by omega) (by decide)
      (fun i hi => ⟨("zap"), by interval_cases i; rfl⟩)
  · exact (c4_retried_count (fun _ => .err ("zap")) 2 10 0 ("x")).2
      (fun i _ => ⟨("zap"), rfl⟩)

/-- Claim C5: when every attempt fails with a retryable error, the result is
failure with `retriedCount = maxRetries`, the delay scheduled after attempt
`i` is `retryDelayMs * (i + 1)`, and the cumulative scheduled delay is at
least `retryDelayMs * (1 + 2 + ... + (maxRetries - 1))`. -/
theorem c5_all_retryable (rpc : Nat → RpcOutcome) (mr d : Nat)
    (hall : ∀ i, i < mr → ∃ m, rpc i = .err m ∧ isRetryableError m = true) :
    (saveVideoAnalysisWithRetry rpc mr d).result.success = false ∧
    (saveVideoAnalysisWithRetry rpc mr d).result.retriedCount = mr ∧
    (saveVideoAnalysisWithRetry rpc mr d).delays =
      (List.range (mr - 1)).map (fun i => d * (i + 1)) ∧
    d * ((List.range mr).sum) ≤ (saveVideoAnalysisWithRetry rpc mr d).delays.sum := by
  have hres : (saveVideoAnalysisWithRetry rpc mr d).result =
      ⟨false, none, some ("Max retries exceeded"), mr⟩ :=
    saveGo_exhaust_result rpc mr d mr 0 (by omega)
      (fun i _ h2 => ⟨(hall i h2).choose, (hall i h2).choose_spec.1⟩)
  have hdel : (saveVideoAnalysisWithRetry rpc mr d).delays =
      (List.range' 1 (mr - 1)).map (fun j => d * j) :=
    saveGo_delays_retryable rpc mr d hall mr 0 (by omega)
  have hdel' : (saveVideoAnalysisWithRetry rpc mr d).delays =
      (List.range (mr - 1)).map (fun i => d * (i + 1)) := by
    rw [hdel, List.range'_eq_map_range, List.map_map]
    exact List.map_congr_left (fun i _ => by simp [Nat.add_comm])
  refine ⟨by rw [hres], by rw [hres], hdel', ?_⟩
  rw [hdel', sum_range_map_mul_succ d (mr - 1)]
  cases mr with
  | zero =>
    have h1 : (List.range 1).sum = 0 := rfl
    simp [h1]
  | succ n => simp

/-- Witness for C5 at a concrete input: three attempts, all failing with a
message containing the `profiles` marker. -/
theorem c5_all_retryable_witness :
    (saveVideoAnalysisWithRetry (fun _ => .err ("profiles missing")) 3 10).result.success
        = false ∧
    (saveVideoAnalysisWithRetry (fun _ => .err ("profiles missing")) 3 10).result.retriedCount
        = 3 ∧
    (saveVideoAnalysisWithRetry (fun _ => .err ("profiles missing")) 3 10).delays =
      (List.range 2).map (fun i => 10 * (i + 1)) ∧
    10 * ((List.range 3).sum) ≤
      (saveVideoAnalysisWithRetry (fun _ => .err ("profiles missing")) 3 10).delays.sum :=
  c5_all_retryable (fun _ => .err ("profiles missing")) 3 10
    (fun _ _ => ⟨("profiles missing"), rfl, by decide⟩)

/-- Claim C9: with `maxRetries = 0` the loop body never runs — the remote
procedure is never invoked and the result is the fixed failure record with
`retriedCount = 0`. -/
theorem c9_zero_max_retries (rpc : Nat → RpcOutcome) (d : Nat) :
    saveVideoAnalysisWithRetry rpc 0 d =
      ⟨⟨false, none, some ("Max retries exceeded"), 0⟩, 0, []⟩ := rfl

/-- Claim C10: every failing run reports the fixed string
`Max retries exceeded`; the underlying error message is never surfaced. -/
theorem c10_fixed_error_string (rpc : Nat → RpcOutcome) (mr d : Nat)
    (hfail : (saveVideoAnalysisWithRetry rpc mr d).result.success = false) :
    (saveVideoAnalysisWithRetry rpc mr d).result.error =
      some ("Max retries exceeded") :=
  saveGo_error_on_failure rpc mr d mr 0 hfail

/-- Witness for C10 at a concrete input. -/
theorem c10_fixed_error_string_witness :
    (saveVideoAnalysisWithRetry (fun _ => .err ("oops")) 1 0).result.success = false ∧
    (saveVideoAnalysisWithRetry (fun _ => .err ("oops")) 1 0).result.error =
      some ("Max retries exceeded") :=
  ⟨by decide, c10_fixed_error_string (fun _ => .err ("oops")) 1 0 (by decide)⟩

/-! ### Lemmas about the linking primitive -/

/-- The `.single()` link check succeeds exactly when the pair's filter of
`user_videos` is a singleton. -/
lemma linkExists_iff_length (rows : List UserVideoRow) (u v : String) :
    linkExists rows u v = true ↔
      (rows.filter (fun x => x.user_id == u && x.video_id == v)).length = 1 := by
  rw [linkExists]
  rcases h : rows.filter (fun x => x.user_id == u && x.video_id == v) with
    _ | ⟨a, _ | ⟨b, l⟩⟩ <;> simp [h]

/-- When the link already exists, the primitive returns success without
writing. -/
lemma ensure_link_already (db : LinkDB) (env : LinkEnv) (u y vid : String)
    (h1 : env.videoQueryThrows = none) (h2 : env.linkQueryThrows = none)
    (hv : lookupVideo db y = some vid)
    (hex : linkExists db.userVideos u vid = true) :
    ensureUserVideoLink db env u y = (⟨true, some vid, none⟩, db, 0) := by
  simp [ensureUserVideoLink, h1, h2, hv, hex]

/-- When no link row for the pair exists and the upsert goes through, the
primitive appends exactly one link row and returns success. -/
lemma ensure_creates_link (db : LinkDB) (env : LinkEnv) (u y vid : String)
    (h1 : env.videoQueryThrows = none) (h2 : env.linkQueryThrows = none)
    (h3 : env.upsertThrows = none) (h4 : env.upsertError = none)
    (hv : lookupVideo db y = some vid)
    (hno : db.userVideos.filter (fun x => x.user_id == u && x.video_id == vid) = []) :
    ensureUserVideoLink db env u y =
      (⟨true, some vid, none⟩,
        ⟨db.videoAnalyses, db.userVideos ++ [⟨u, vid, env.now⟩]⟩, 1) := by
  have hmem := List.filter_eq_nil_iff.mp hno
  have hex : linkExists db.userVideos u vid = false := by
    rw [linkExists, hno]
  have hany : db.userVideos.any (fun x => x.user_id == u && x.video_id == vid) = false := by
    rw [Bool.eq_false_iff]
    intro hc
    obtain ⟨x, hx, hpx⟩ := List.any_eq_true.mp hc
    exact hmem x hx hpx
  simp [ensureUserVideoLink, h1, h2, h3, h4, hv, hex, upsertRow, hany]

/-! ### Claims about ensureUserVideoLink -/

/-- Claim C2 counterexample: the video lookup succeeds (the video exists),
but the upsert step throws an unexpected exception, and the catch block
returns `videoId = null`, not the internal id. -/
theorem c2_counterexample :
    lookupVideo ⟨[(("y1"), ("v1"))], []⟩ ("y1") = some ("v1") ∧
    (ensureUserVideoLink ⟨[(("y1"), ("v1"))], []⟩
        ⟨none, none, some ("network error"), none, 0⟩ ("u1") ("y1")).1.videoId ≠
      some ("v1") ∧
    (ensureUserVideoLink ⟨[(("y1"), ("v1"))], []⟩
        ⟨none, none, some ("network error"), none, 0⟩ ("u1") ("y1")).1.videoId = none := by
  decide

/-- Claim C2 as amended: when the video lookup succeeds and no awaited step
throws an unexpected exception, the returned `videoId` equals the video's
internal id on every outcome — in particular when the upsert reports an
error. -/
theorem c2_video_id_returned_amended (db : LinkDB) (env : LinkEnv) (u y vid : String)
    (h1 : env.videoQueryThrows = none) (h2 : env.linkQueryThrows = none)
    (h3 : env.upsertThrows = none)
    (hv : lookupVideo db y = some vid) :
    (ensureUserVideoLink db env u y).1.videoId = some vid := by
  by_cases hex : linkExists db.userVideos u vid
  · simp [ensureUserVideoLink, h1, h2, h3, hv, hex]
  · simp only [Bool.not_eq_true] at hex
    cases he : env.upsertError with
    | none => simp [ensureUserVideoLink, h1, h2, h3, he, hv, hex]
    | some m => simp [ensureUserVideoLink, h1, h2, h3, he, hv, hex]

/-- Witness for the amended C2 at a concrete input with a failing upsert. -/
theorem c2_video_id_returned_amended_witness :
    (ensureUserVideoLink ⟨[(("y1"), ("v1"))], []⟩
        ⟨none, none, none, some ("disk full"), 5⟩ ("u1") ("y1")).1.videoId =
      some ("v1") :=
  c2_video_id_returned_amended _ _ _ _ ("v1") rfl rfl rfl (by decide)

/-- Claim C7: when no `video_analyses` row matches the external id and the
lookup round trip itself does not throw, the primitive returns exactly
`linked=false, videoId=null, error="Video not found"` and performs no
write. -/
theorem c7_video_not_found (db : LinkDB) (env : LinkEnv) (u y : String)
    (hthrow : env.videoQueryThrows = none)
    (habsent : db.videoAnalyses.filter (fun va => va.1 == y) = []) :
    ensureUserVideoLink db env u y =
      (⟨false, none, some ("Video not found")⟩, db, 0) := by
  have hlook : lookupVideo db y = none := by
    rw [lookupVideo, habsent]
  simp [ensureUserVideoLink, hthrow, hlook]

/-- Witness for C7 at a concrete input. -/
theorem c7_video_not_found_witness :
    ensureUserVideoLink ⟨[], []⟩ ⟨none, none, none, none, 0⟩ ("u1") ("y1") =
      (⟨false, none, some ("Video not found")⟩, ⟨[], []⟩, 0) :=
  c7_video_not_found ⟨[], []⟩ ⟨none, none, none, none, 0⟩ ("u1") ("y1") rfl rfl

/-- Claim C6: for a pair whose video exists, under the store's uniqueness
invariant, two successive non-throwing invocations both report
`linked=true`, the second performs no write, and afterwards at most one
link row for the pair exists. -/
theorem c6_idempotent (db : LinkDB) (env1 env2 : LinkEnv) (u y vid : String)
    (hv : lookupVideo db y = some vid)
    (h11 : env1.videoQueryThrows = none) (h12 : env1.linkQueryThrows = none)
    (h13 : env1.upsertThrows = none) (h14 : env1.upsertError = none)
    (h21 : env2.videoQueryThrows = none) (h22 : env2.linkQueryThrows = none)
    (huniq : (db.userVideos.filter
        (fun x => x.user_id == u && x.video_id == vid)).length ≤ 1) :
    (ensureUserVideoLink db env1 u y).1.linked = true ∧
    (ensureUserVideoLink (ensureUserVideoLink db env1 u y).2.1 env2 u y).1.linked = true ∧
    (ensureUserVideoLink (ensureUserVideoLink db env1 u y).2.1 env2 u y).2.2 = 0 ∧
    ((ensureUserVideoLink (ensureUserVideoLink db env1 u y).2.1 env2 u y).2.1.userVideos.filter
        (fun x => x.user_id == u && x.video_id == vid)).length ≤ 1 := by
  by_cases hex : linkExists db.userVideos u vid
  · rw [ensure_link_already db env1 u y vid h11 h12 hv hex]
    dsimp only
    rw [ensure_link_already db env2 u y vid h21 h22 hv hex]
    exact ⟨rfl, rfl, rfl, huniq⟩
  · simp only [Bool.not_eq_true] at hex
    have hlen : (db.userVideos.filter
        (fun x => x.user_id == u && x.video_id == vid)).length = 0 := by
      have hne : (db.userVideos.filter
          (fun x => x.user_id == u && x.video_id == vid)).length ≠ 1 := by
        intro hl
        rw [(linkExists_iff_length db.userVideos u vid).mpr hl] at hex
        exact Bool.true_eq_false.mp hex
      omega
    have hno := List.length_eq_zero.mp hlen
    rw [ensure_creates_link db env1 u y vid h11 h12 h13 h14 hv hno]
    dsimp only
    have hfil2 : ((db.userVideos ++ [(⟨u, vid, env1.now⟩ : UserVideoRow)]).filter
        (fun x => x.user_id == u && x.video_id == vid)) =
        [(⟨u, vid, env1.now⟩ : UserVideoRow)] := by
      simp only [List.filter_append, hno, List.nil_append]
      simp
    have hex2 : linkExists (db.userVideos ++ [(⟨u, vid, env1.now⟩ : UserVideoRow)])
        u vid = true := by
      rw [linkExists, hfil2]
    have hv2 : lookupVideo
        ⟨db.videoAnalyses, db.userVideos ++ [(⟨u, vid, env1.now⟩ : UserVideoRow)]⟩ y =
        some vid := hv
    rw [ensure_link_already _ env2 u y vid h21 h22 hv2 hex2]
    dsimp only
    rw [hfil2]
    exact ⟨rfl, rfl, rfl, le_rfl⟩

/-- Witness for C6 at a concrete input: an existing video, an empty link
table, two clean invocations. -/
theorem c6_idempotent_witness :
    (ensureUserVideoLink ⟨[(("y1"), ("v1"))], []⟩ ⟨none, none, none, none, 7⟩
        ("u1") ("y1")).1.linked = true ∧
    (ensureUserVideoLink
        (ensureUserVideoLink ⟨[(("y1"), ("v1"))], []⟩ ⟨none, none, none, none, 7⟩
          ("u1") ("y1")).2.1
        ⟨none, none, none, none, 9⟩ ("u1") ("y1")).1.linked = true ∧
    (ensureUserVideoLink
        (ensureUserVideoLink ⟨[(("y1"), ("v1"))], []⟩ ⟨none, none, none, none, 7⟩
          ("u1") ("y1")).2.1
        ⟨none, none, none, none, 9⟩ ("u1") ("y1")).2.2 = 0 ∧
    ((ensureUserVideoLink
        (ensureUserVideoLink ⟨[(("y1"), ("v1"))], []⟩ ⟨none, none, none, none, 7⟩
          ("u1") ("y1")).2.1
        ⟨none, none, none, none, 9⟩ ("u1") ("y1")).2.1.userVideos.filter
        (fun x => x.user_id == ("u1") && x.video_id == ("v1"))).length ≤ 1 :=
  c6_idempotent ⟨[(("y1"), ("v1"))], []⟩ ⟨none, none, none, none, 7⟩
    ⟨none, none, none, none, 9⟩ ("u1") ("y1") ("v1") (by decide)
    rfl rfl rfl rfl rfl rfl (by decide)

/-! ### Claims about the route handler -/

/-- Claim C3 counterexample: a body whose `videoId` is the empty string — a
present string value — is rejected with 400 by the guard
`!videoId || typeof videoId !== 'string'` (the empty string is falsy),
whereas the claim's case chain puts such a request past the 400 check (here
it would have to produce 401, there being no authenticated user). -/
theorem c3_counterexample :
    ¬ c3ClaimedBehaviour ⟨[], []⟩ ⟨none, .strVal (""), none, ⟨none, none, none, none, 0⟩⟩ := by
  intro h
  exact absurd (show (400 : Nat) = 401 from h) (by decide)

/-- Claim C3 as amended: the handler behaves as the claim's case chain
states, with two JS-truthiness corrections — an empty-string `videoId` is
also rejected with 400, and the 500 branch fires only for a truthy
(non-null, non-empty) error with `linked=false`; every path, including a
thrown `req.json()`, yields a structured response. -/
theorem c3_handler_amended (db : LinkDB) (env : RouteEnv) :
    (handler db env).1 = handlerAmendedSpec db env := by
  rcases env with ⟨jt, body, user, lenv⟩
  cases jt with
  | some m => rfl
  | none =>
    cases body with
    | missing => rfl
    | notString => rfl
    | strVal s =>
      by_cases hs : s = ""
      · subst hs; rfl
      · simp only [handler, handlerAmendedSpec, beq_iff_eq, if_neg hs]
        cases user with
        | none => rfl
        | some uid =>
          rcases hres : ensureUserVideoLink db lenv uid s with ⟨r, db2, w⟩
          rcases r with ⟨linked, vidId, err⟩
          cases err with
          | none => simp [errTruthy, hres]
          | some e =>
            by_cases he : e = ""
            · subst he; simp [errTruthy, hres]
            · cases linked with
              | true => simp [errTruthy, hres, he]
              | false => simp [errTruthy, hres, he]

/-! ### Lemmas about the bulk repair statement -/

/-- Rows produced by the conflict-skipping insert come from the existing
table or from the candidate list. -/
lemma mem_insertOCDN (cand : List UserVideoRow) :
    ∀ rows r, r ∈ (insertOnConflictDoNothing rows cand).1 → r ∈ rows ∨ r ∈ cand := by
  induction cand with
  | nil => intro rows r h; exact Or.inl h
  | cons c rest ih =>
    intro rows r h
    rw [insertOnConflictDoNothing] at h
    by_cases hc : hasLink rows c.user_id c.video_id = true
    · rw [if_pos hc] at h
      rcases ih rows r h with h1 | h2
      · exact Or.inl h1
      · exact Or.inr (List.mem_cons_of_mem c h2)
    · rw [if_neg hc] at h
      rcases ih (rows ++ [c]) r h with h1 | h2
      · rcases List.mem_append.mp h1 with h3 | h4
        · exact Or.inl h3
        · rw [List.mem_singleton] at h4
          subst h4
          exact Or.inr (List.mem_cons_self r rest)
      · exact Or.inr (List.mem_cons_of_mem c h2)

/-- Appending a row keeps every existing pair linked. -/
lemma hasLink_append_left (rows : List UserVideoRow) (r : UserVideoRow) (u v : String)
    (h : hasLink rows u v = true) : hasLink (rows ++ [r]) u v = true := by
  rw [hasLink, List.any_append]
  rw [hasLink] at h
  simp [h]

/-- The appended row's own pair is linked. -/
lemma hasLink_self_append (rows : List UserVideoRow) (c : UserVideoRow) :
    hasLink (rows ++ [c]) c.user_id c.video_id = true := by
  rw [hasLink, List.any_append]
  simp

/-- The conflict-skipping insert never unlinks a pair. -/
lemma hasLink_insertOCDN_mono (cand : List UserVideoRow) :
    ∀ rows u v, hasLink rows u v = true →
      hasLink (insertOnConflictDoNothing rows cand).1 u v = true := by
  induction cand with
  | nil => intro rows u v h; exact h
  | cons c rest ih =>
    intro rows u v h
    rw [insertOnConflictDoNothing]
    by_cases hc : hasLink rows c.user_id c.video_id = true
    · rw [if_pos hc]; exact ih rows u v h
    · rw [if_neg hc]
      exact ih (rows ++ [c]) u v (hasLink_append_left rows c u v h)

/-- After the conflict-skipping insert, every candidate's pair is linked
(either it conflicted with an existing or earlier row, or it was
inserted). -/
lemma hasLink_insertOCDN_covers (cand : List UserVideoRow) :
    ∀ rows r, r ∈ cand →
      hasLink (insertOnConflictDoNothing rows cand).1 r.user_id r.video_id = true := by
  induction cand with
  | nil => intro rows r h; cases h
  | cons c rest ih =>
    intro rows r h
    rw [insertOnConflictDoNothing]
    by_cases hc : hasLink rows c.user_id c.video_id = true
    · rw [if_pos hc]
      rcases List.mem_cons.mp h with h1 | h2
      · subst h1
        exact hasLink_insertOCDN_mono rest rows r.user_id r.video_id hc
      · exact ih rows r h2
    · rw [if_neg hc]
      rcases List.mem_cons.mp h with h1 | h2
      · subst h1
        exact hasLink_insertOCDN_mono rest (rows ++ [r]) r.user_id r.video_id
          (hasLink_self_append rows r)
      · exact ih (rows ++ [c]) r h2

/-- Membership in the migration's `SELECT DISTINCT`: a joinable
`(generation, analysis)` pair whose user has a profile and whose pair is
not yet linked. -/
lemma mem_bulkSelect (db : BulkDB) (r : UserVideoRow) :
    r ∈ bulkSelect db ↔
      (∃ vg ∈ db.video_generations, ∃ va ∈ db.video_analyses,
        vg.user_id = some r.user_id ∧ (va.youtube_id == vg.youtube_id) = true ∧
        va.id = r.video_id ∧ vg.created_at = r.accessed_at) ∧
      db.profiles.contains r.user_id = true ∧
      hasLink db.user_videos r.user_id r.video_id = false := by
  rw [bulkSelect, List.mem_dedup, List.mem_flatMap]
  constructor
  · rintro ⟨vg, hvg, hr⟩
    cases hu : vg.user_id with
    | none => simp only [hu] at hr; exact absurd hr (List.not_mem_nil r)
    | some u =>
      simp only [hu] at hr
      obtain ⟨va, hva, hfa⟩ := List.mem_filterMap.mp hr
      rw [List.mem_filter] at hva
      by_cases hcond : (db.profiles.contains u && !hasLink db.user_videos u va.id) = true
      · rw [if_pos hcond] at hfa
        rw [Bool.and_eq_true] at hcond
        obtain ⟨hprof, hnl⟩ := hcond
        injection hfa with hfa
        subst hfa
        refine ⟨⟨vg, hvg, va, hva.1, hu, hva.2, rfl, rfl⟩, hprof, ?_⟩
        simpa using hnl
      · rw [if_neg hcond] at hfa; cases hfa
  · rintro ⟨⟨vg, hvg, va, hva, hu, hyt, hid, hat⟩, hprof, hnolink⟩
    refine ⟨vg, hvg, ?_⟩
    simp only [hu]
    apply List.mem_filterMap.mpr
    refine ⟨va, List.mem_filter.mpr ⟨hva, hyt⟩, ?_⟩
    rw [if_pos]
    · rw [hid, hat]
    · rw [hid, Bool.and_eq_true]
      exact ⟨hprof, by rw [hnolink]; rfl⟩

/-- The conflict-skipping insert preserves uniqueness of the
`(user_id, video_id)` key. -/
lemma insertOCDN_nodup (cand : List UserVideoRow) :
    ∀ rows, (rows.map linkKey).Nodup →
      ((insertOnConflictDoNothing rows cand).1.map linkKey).Nodup := by
  induction cand with
  | nil => intro rows h; exact h
  | cons c rest ih =>
    intro rows h
    rw [insertOnConflictDoNothing]
    by_cases hc : hasLink rows c.user_id c.video_id = true
    · rw [if_pos hc]; exact ih rows h
    · rw [if_neg hc]
      apply ih
      rw [List.map_append]
      apply List.Nodup.append h (by simp)
      intro a ha hb
      rw [List.map_singleton, List.mem_singleton] at hb
      subst hb
      obtain ⟨x, hx, hxa⟩ := List.mem_map.mp ha
      apply hc
      rw [hasLink, List.any_eq_true]
      refine ⟨x, hx, ?_⟩
      have h1 : x.user_id = c.user_id := congrArg Prod.fst hxa
      have h2 : x.video_id = c.video_id := congrArg Prod.snd hxa
      rw [h1, h2]
      simp

/-! ### Claim about the bulk repair statement -/

/-- Claim C8: the bulk repair statement only inserts rows whose `user_id`
has a `profiles` row, a second run immediately after the first inserts zero
rows, and the at-most-one-link-per-pair invariant is preserved. -/
theorem c8_bulk_repair (db : BulkDB) :
    (∀ r ∈ (bulkRepair db).1.user_videos, r ∉ db.user_videos →
      db.profiles.contains r.user_id = true) ∧
    (bulkRepair (bulkRepair db).1).2 = 0 ∧
    ((db.user_videos.map linkKey).Nodup →
      ((bulkRepair db).1.user_videos.map linkKey).Nodup) := by
  refine ⟨?_, ?_, ?_⟩
  · intro r hmem hold
    rcases mem_insertOCDN (bulkSelect db) db.user_videos r hmem with h1 | h2
    · exact absurd h1 hold
    · exact ((mem_bulkSelect db r).mp h2).2.1
  · have hsel : bulkSelect (bulkRepair db).1 = [] := by
      rw [List.eq_nil_iff_forall_not_mem]
      intro r hr
      obtain ⟨⟨vg, hvg, va, hva, hu, hyt, hid, hat⟩, hprof, hnolink⟩ :=
        (mem_bulkSelect (bulkRepair db).1 r).mp hr
      rw [show ((bulkRepair db).1.user_videos) =
          (insertOnConflictDoNothing db.user_videos (bulkSelect db)).1 from rfl] at hnolink
      by_cases hl : hasLink db.user_videos r.user_id r.video_id = true
      · rw [hasLink_insertOCDN_mono (bulkSelect db) db.user_videos
          r.user_id r.video_id hl] at hnolink
        cases hnolink
      · have hlf : hasLink db.user_videos r.user_id r.video_id = false :=
          Bool.eq_false_iff.mpr hl
        have hrsel : r ∈ bulkSelect db :=
          (mem_bulkSelect db r).mpr ⟨⟨vg, hvg, va, hva, hu, hyt, hid, hat⟩, hprof, hlf⟩
        rw [hasLink_insertOCDN_covers (bulkSelect db) db.user_videos r hrsel] at hnolink
        cases hnolink
    show (insertOnConflictDoNothing (bulkRepair db).1.user_videos
      (bulkSelect (bulkRepair db).1)).2 = 0
    rw [hsel]
    rfl
  · intro hnd
    exact insertOCDN_nodup (bulkSelect db) db.user_videos hnd

/-- Witness for C8 at a concrete state: one generation event, its analysis
row, a profile for the user, and an empty link table. -/
theorem c8_bulk_repair_witness :
    (⟨[⟨some ("u1"), ("y1"), 3⟩], [⟨("v1"), ("y1")⟩], [("u1")], []⟩ : BulkDB).profiles.contains
      ((⟨("u1"), ("v1"), 3⟩ : UserVideoRow)).user_id = true ∧
    (bulkRepair
      (bulkRepair ⟨[⟨some ("u1"), ("y1"), 3⟩], [⟨("v1"), ("y1")⟩], [("u1")], []⟩).1).2 = 0 ∧
    ((bulkRepair ⟨[⟨some ("u1"), ("y1"), 3⟩], [⟨("v1"), ("y1")⟩],
      [("u1")], []⟩).1.user_videos.map linkKey).Nodup := by
  refine ⟨?_, ?_, ?_⟩
  · exact (c8_bulk_repair ⟨[⟨some ("u1"), ("y1"), 3⟩], [⟨("v1"), ("y1")⟩], [("u1")], []⟩).1
      ⟨("u1"), ("v1"), 3⟩ (by decide) (by decide)
  · exact (c8_bulk_repair ⟨[⟨some ("u1"), ("y1"), 3⟩], [⟨("v1"), ("y1")⟩], [("u1")], []⟩).2.1
  · exact (c8_bulk_repair ⟨[⟨some ("u1"), ("y1"), 3⟩], [⟨("v1"), ("y1")⟩], [("u1")], []⟩).2.2
      (by decide)
